import Mathlib

/-!
Verification of the context synchronization and merge subsystem of the
conversa repository, as a shallow embedding in Lean.

Conventions of the embedding:
* Python `dict[str, X]` values are insertion-ordered association lists
  `List (String × X)`; reads take the first matching key.
* JSON values (`Any` in the Python signatures) are the `Json` inductive below.
* `datetime` values are `Int` (seconds since an arbitrary epoch); `timedelta`
  arithmetic becomes integer addition.
* `UUID` identifiers are `Nat`.
* Fallible Python code (raised `ValueError` and friends) is `Except String`.
* External effects (HTTP responses, credential rows read from the database,
  pydantic validation of an untrusted body) are passed in as explicit inputs.
-/

namespace Conversa

/-- JSON values, as produced by `json` parsing in the Python sources. -/
inductive Json where
  | str (s : String)
  | num (n : Int)
  | bool (b : Bool)
  | null
  | arr (xs : List Json)
  | obj (fields : List (String × Json))

mutual

def Json.decEq : (a b : Json) → Decidable (a = b)
  | .str x, .str y =>
    match String.decEq x y with
    | isTrue h => isTrue (by rw [h])
    | isFalse h => isFalse (by intro he; injection he; contradiction)
  | .num x, .num y =>
    match Int.decEq x y with
    | isTrue h => isTrue (by rw [h])
    | isFalse h => isFalse (by intro he; injection he; contradiction)
  | .bool x, .bool y =>
    match Bool.decEq x y with
    | isTrue h => isTrue (by rw [h])
    | isFalse h => isFalse (by intro he; injection he; contradiction)
  | .null, .null => isTrue rfl
  | .arr xs, .arr ys =>
    match Json.decEqList xs ys with
    | isTrue h => isTrue (by rw [h])
    | isFalse h => isFalse (by intro he; injection he; contradiction)
  | .obj xs, .obj ys =>
    match Json.decEqObj xs ys with
    | isTrue h => isTrue (by rw [h])
    | isFalse h => isFalse (by intro he; injection he; contradiction)
  | .str _, .num _ => isFalse (by intro h; cases h)
  | .str _, .bool _ => isFalse (by intro h; cases h)
  | .str _, .null => isFalse (by intro h; cases h)
  | .str _, .arr _ => isFalse (by intro h; cases h)
  | .str _, .obj _ => isFalse (by intro h; cases h)
  | .num _, .str _ => isFalse (by intro h; cases h)
  | .num _, .bool _ => isFalse (by intro h; cases h)
  | .num _, .null => isFalse (by intro h; cases h)
  | .num _, .arr _ => isFalse (by intro h; cases h)
  | .num _, .obj _ => isFalse (by intro h; cases h)
  | .bool _, .str _ => isFalse (by intro h; cases h)
  | .bool _, .num _ => isFalse (by intro h; cases h)
  | .bool _, .null => isFalse (by intro h; cases h)
  | .bool _, .arr _ => isFalse (by intro h; cases h)
  | .bool _, .obj _ => isFalse (by intro h; cases h)
  | .null, .str _ => isFalse (by intro h; cases h)
  | .null, .num _ => isFalse (by intro h; cases h)
  | .null, .bool _ => isFalse (by intro h; cases h)
  | .null, .arr _ => isFalse (by intro h; cases h)
  | .null, .obj _ => isFalse (by intro h; cases h)
  | .arr _, .str _ => isFalse (by intro h; cases h)
  | .arr _, .num _ => isFalse (by intro h; cases h)
  | .arr _, .bool _ => isFalse (by intro h; cases h)
  | .arr _, .null => isFalse (by intro h; cases h)
  | .arr _, .obj _ => isFalse (by intro h; cases h)
  | .obj _, .str _ => isFalse (by intro h; cases h)
  | .obj _, .num _ => isFalse (by intro h; cases h)
  | .obj _, .bool _ => isFalse (by intro h; cases h)
  | .obj _, .null => isFalse (by intro h; cases h)
  | .obj _, .arr _ => isFalse (by intro h; cases h)

def Json.decEqList : (xs ys : List Json) → Decidable (xs = ys)
  | [], [] => isTrue rfl
  | x :: xs, y :: ys =>
    match Json.decEq x y, Json.decEqList xs ys with
    | isTrue h1, isTrue h2 => isTrue (by rw [h1, h2])
    | isFalse h1, _ => isFalse (by intro he; injection he; contradiction)
    | _, isFalse h2 => isFalse (by intro he; injection he; contradiction)
  | [], _ :: _ => isFalse (by intro h; cases h)
  | _ :: _, [] => isFalse (by intro h; cases h)

def Json.decEqObj : (xs ys : List (String × Json)) → Decidable (xs = ys)
  | [], [] => isTrue rfl
  | (k1, v1) :: xs, (k2, v2) :: ys =>
    match String.decEq k1 k2, Json.decEq v1 v2, Json.decEqObj xs ys with
    | isTrue h0, isTrue h1, isTrue h2 => isTrue (by rw [h0, h1, h2])
    | isFalse h0, _, _ =>
      isFalse (by intro he; injection he with hp ht; injection hp; contradiction)
    | _, isFalse h1, _ =>
      isFalse (by intro he; injection he with hp ht; injection hp; contradiction)
    | _, _, isFalse h2 => isFalse (by intro he; injection he; contradiction)
  | [], _ :: _ => isFalse (by intro h; cases h)
  | _ :: _, [] => isFalse (by intro h; cases h)

end

instance : DecidableEq Json := Json.decEq

/-- Python truthiness of a JSON value (`if x:`): empty/zero/None are falsy. -/
def Json.truthy : Json → Bool
  | .str s => !(s == "")
  | .num n => !(n == 0)
  | .bool b => b
  | .null => false
  | .arr xs => !xs.isEmpty
  | .obj fs => !fs.isEmpty

/-- Python truthiness of an `Optional[str]` (`if x:`). -/
def opt_str_truthy : Option String → Bool
  | some s => !(s == "")
  | none => false

/-- UTF-8 length of one character of a JSON string once escaped by
`json.dumps` with its default `ensure_ascii=True`: `"` and `\` and the
short control escapes take two bytes, other control characters and all
non-ASCII characters in the BMP take a six-byte `\uXXXX` escape,
astral characters take a surrogate pair, and printable ASCII is verbatim. -/
def escaped_char_bytes (c : Char) : Nat :=
  if c = '\"' ∨ c = '\\' then 2
  else if c = (Char.ofNat 8) ∨ c = '\t' ∨ c = '\n' ∨ c = (Char.ofNat 12) ∨ c = '\r' then 2
  else if c.toNat < 32 then 6
  else if c.toNat ≤ 126 then 1
  else if c.toNat ≤ 65535 then 6
  else 12

/-- UTF-8 byte length of `json.dumps` applied to a Python string
(the surrounding quotes plus each character's escaped length). -/
def json_string_bytes (s : String) : Nat :=
  2 + (s.data.map escaped_char_bytes).sum

mutual

/-- UTF-8 byte length of `json.dumps(v)` with the default separators
`", "` and `": "` — the quantity the merge service's facts size cap
measures via `len(json.dumps(facts).encode("utf-8"))`. -/
def Json.dumpsBytes : Json → Nat
  | .str s => json_string_bytes s
  | .num n => (toString n).length
  | .bool b => if b then 4 else 5
  | .null => 4
  | .arr xs => 2 + Json.dumpsBytesList xs
  | .obj fs => 2 + Json.dumpsBytesObj fs

/-- Byte length of the comma-separated items of a JSON array body. -/
def Json.dumpsBytesList : List Json → Nat
  | [] => 0
  | [x] => Json.dumpsBytes x
  | x :: y :: xs => Json.dumpsBytes x + 2 + Json.dumpsBytesList (y :: xs)

/-- Byte length of the comma-separated `"key": value` entries of a JSON
object body. -/
def Json.dumpsBytesObj : List (String × Json) → Nat
  | [] => 0
  | [(k, v)] => json_string_bytes k + 2 + Json.dumpsBytes v
  | (k, v) :: e :: fs =>
    json_string_bytes k + 2 + Json.dumpsBytes v + 2 + Json.dumpsBytesObj (e :: fs)

end

/-! ### Schemas (`app/schemas/context_pack.py`) -/

/-- `FACTS_MAX_BYTES = 8 * 1024`. -/
def FACTS_MAX_BYTES : Nat := 8 * 1024

/-- `RECENTS_MAX_COUNT = 50`. -/
def RECENTS_MAX_COUNT : Nat := 50

/-- `POINTERS_MAX_PER_CATEGORY = 100`. -/
def POINTERS_MAX_PER_CATEGORY : Nat := 100

/-- `MergeableContextPack`: validated pack structure for merge input. -/
structure MergeableContextPack where
  source_id : String
  schema_version : String
  generated_at : Int
  facts : List (String × Json)
  recents : List (String × Json)
  pointers : List (String × List String)
  deriving DecidableEq

/-- `MergedContextPayload`: validated merged payload from `merge_packs`.
The merge always produces lists for the recents categories, so that field
is typed `List (String × List Json)` here. -/
structure MergedContextPayload where
  schema_version : String
  generated_at : Int
  facts : List (String × Json)
  recents : List (String × List Json)
  pointers : List (String × List String)
  deriving DecidableEq

/-! ### Association-list helpers (Python dict reads and writes) -/

/-- Python `d[k] = v` on a dict: overwrite the first occurrence of the key,
append the entry when the key is absent. -/
def set_assoc {α : Type} (m : List (String × α)) (k : String) (v : α) :
    List (String × α) :=
  match m with
  | [] => [(k, v)]
  | (k', v') :: rest =>
    if k' = k then (k, v) :: rest else (k', v') :: set_assoc rest k v

/-! ### Merge engine (`app/services/context_merge_service.py`) -/

/-- One step of `_merge_facts`'s inner loop:
`if fact_key not in merged: merged[fact_key] = fact_value`. -/
def insert_fact (merged : List (String × Json)) (kv : String × Json) :
    List (String × Json) :=
  if (List.lookup kv.1 merged).isSome then merged else merged ++ [kv]

/-- `_merge_facts`: priority winner, the first pack defining a key wins. -/
def merge_facts (packs : List MergeableContextPack) : List (String × Json) :=
  packs.foldl (fun merged pack => pack.facts.foldl insert_fact merged) []

/-- Does some existing (dict) item carry exactly this `id` value?
Embeds `any(existing_item.get("id") == item["id"] for existing_item in
existing_items if isinstance(existing_item, dict))`. -/
def has_item_with_id (existing : List Json) (idv : Json) : Bool :=
  existing.any (fun e =>
    match e with
    | Json.obj efs =>
      match List.lookup "id" efs with
      | some w => w == idv
      | none => false
    | _ => false)

/-- One item of `_merge_recents`'s innermost loop: dict items with a truthy
`id` are deduplicated by that id, everything else by exact equality. -/
def add_recent_item (existing : List Json) (item : Json) : List Json :=
  match item with
  | Json.obj fs =>
    match List.lookup "id" fs with
    | some idv =>
      if idv.truthy then
        if has_item_with_id existing idv then existing else existing ++ [item]
      else if existing.contains (Json.obj fs) then existing
      else existing ++ [item]
    | none =>
      if existing.contains (Json.obj fs) then existing else existing ++ [item]
  | _ => if existing.contains item then existing else existing ++ [item]

/-- One category value of `_merge_recents`: a list contributes its items one
by one; a non-list value is appended when not already present. -/
def add_recent_value (existing : List Json) (v : Json) : List Json :=
  match v with
  | Json.arr items => items.foldl add_recent_item existing
  | _ => if existing.contains v then existing else existing ++ [v]

/-- One `(recent_key, recent_values)` entry of `_merge_recents`'s per-pack
loop: create the category with `[]` when absent, then extend it. -/
def merge_recents_step (merged : List (String × List Json))
    (entry : String × Json) : List (String × List Json) :=
  let merged' :=
    if (List.lookup entry.1 merged).isSome then merged
    else merged ++ [(entry.1, [])]
  let existing := (List.lookup entry.1 merged').getD []
  set_assoc merged' entry.1 (add_recent_value existing entry.2)

/-- `_merge_recents`: union per category with deduplication by id. -/
def merge_recents (packs : List MergeableContextPack) :
    List (String × List Json) :=
  packs.foldl (fun merged pack => pack.recents.foldl merge_recents_step merged) []

/-- One pointer id of `_merge_pointers`'s innermost loop: append when unseen
and the category is still below `POINTERS_MAX_PER_CATEGORY`. -/
def add_pointer (cur : List String) (id_str : String) : List String :=
  if !cur.contains id_str && cur.length < POINTERS_MAX_PER_CATEGORY then
    cur ++ [id_str]
  else cur

/-- One `(category, pointer_ids)` entry of `_merge_pointers`'s per-pack loop. -/
def merge_pointers_step (merged : List (String × List String))
    (entry : String × List String) : List (String × List String) :=
  let merged' :=
    if (List.lookup entry.1 merged).isSome then merged
    else merged ++ [(entry.1, [])]
  let existing := (List.lookup entry.1 merged').getD []
  set_assoc merged' entry.1 (entry.2.foldl add_pointer existing)

/-- `_merge_pointers`: union per category with deduplication and cap. -/
def merge_pointers (packs : List MergeableContextPack) :
    List (String × List String) :=
  packs.foldl (fun merged pack => pack.pointers.foldl merge_pointers_step merged) []

/-- Lexicographic code-point comparison of character lists — Python's
string `<=` order used by `sorted`. -/
def chars_le : List Char → List Char → Bool
  | [], _ => true
  | _ :: _, [] => false
  | c :: cs, d :: ds =>
    if c.toNat < d.toNat then true
    else if d.toNat < c.toNat then false
    else chars_le cs ds

/-- Python string order (`a <= b`), on the code points. -/
def str_le (a b : String) : Bool := chars_le a.data b.data

/-- Insert one entry into a key-sorted association list (ascending keys);
`sorted_by_key` below embeds Python's `sorted(facts.items())`, whose
comparison is decided by the (unique) keys. -/
def insert_sorted (kv : String × Json) :
    List (String × Json) → List (String × Json)
  | [] => [kv]
  | x :: rest =>
    if str_le kv.1 x.1 then kv :: x :: rest else x :: insert_sorted kv rest

/-- `sorted(facts.items())`: the entries in ascending key order. -/
def sorted_by_key (l : List (String × Json)) : List (String × Json) :=
  l.foldr insert_sorted []

/-- The loop of `_truncate_facts`: re-add entries while the serialized
candidate stays within `max_bytes`, `break` at the first that does not fit. -/
def truncate_facts_go (max_bytes : Nat) (acc : List (String × Json)) :
    List (String × Json) → List (String × Json)
  | [] => acc
  | kv :: rest =>
    if Json.dumpsBytes (Json.obj (acc ++ [kv])) ≤ max_bytes then
      truncate_facts_go max_bytes (acc ++ [kv]) rest
    else acc

/-- `_truncate_facts`: truncate facts to fit within `max_bytes` by dropping
keys, re-adding them in sorted key order. -/
def truncate_facts (facts : List (String × Json)) (max_bytes : Nat) :
    List (String × Json) :=
  truncate_facts_go max_bytes [] (sorted_by_key facts)

/-- `_apply_facts_cap`: truncate facts if the serialized size exceeds
`FACTS_MAX_BYTES`. -/
def apply_facts_cap (facts : List (String × Json)) : List (String × Json) :=
  if Json.dumpsBytes (Json.obj facts) > FACTS_MAX_BYTES then
    truncate_facts facts FACTS_MAX_BYTES
  else facts

/-- `_apply_recents_cap`: cap each recents list to `RECENTS_MAX_COUNT` items. -/
def apply_recents_cap (recents : List (String × List Json)) :
    List (String × List Json) :=
  recents.map (fun kv =>
    if kv.2.length > RECENTS_MAX_COUNT then (kv.1, kv.2.take RECENTS_MAX_COUNT)
    else kv)

/-- `_empty_payload`: the payload returned for an empty pack list; `now` is
the wall-clock `datetime.now(timezone.utc)` the Python code reads. -/
def empty_payload (now : Int) : MergedContextPayload :=
  ⟨"1.0", now, [], [], []⟩

/-- `max(pack.generated_at for pack in packs)` over a non-empty pack list. -/
def max_generated_at (p : MergeableContextPack)
    (rest : List MergeableContextPack) : Int :=
  rest.foldl (fun m q => max m q.generated_at) p.generated_at

/-- `merge_packs`: merge multiple source packs into a single payload.
`now` is the wall clock, read only on the empty-input path. -/
def merge_packs (packs : List MergeableContextPack) (now : Int) :
    MergedContextPayload :=
  match packs with
  | [] => empty_payload now
  | p :: rest =>
    ⟨p.schema_version,
     max_generated_at p rest,
     apply_facts_cap (merge_facts (p :: rest)),
     apply_recents_cap (merge_recents (p :: rest)),
     merge_pointers (p :: rest)⟩

/-! ### Data model (`app/models/context_source.py`) -/

/-- `ContextSource`: registered context source row. -/
structure ContextSource where
  id : Nat
  source_id : String
  base_url : String
  credential_id : Option Nat
  poll_interval_seconds : Int
  enabled : Bool
  deleted_at : Option Int
  deriving DecidableEq

/-- `ContextSourceState`: per-source, per-user sync state row. The opaque
`since_cursor` is stored verbatim, so it keeps the `Json` shape the fetcher
extracted. -/
structure ContextSourceState where
  last_success_at : Option Int
  last_attempt_at : Option Int
  last_error : Option String
  etag : Option String
  since_cursor : Option Json
  next_run_at : Option Int
  deriving DecidableEq

/-- The zero state row created by `get_or_create_state` on first encounter. -/
def blank_state : ContextSourceState := ⟨none, none, none, none, none, none⟩

/-- `if arg is not None: field = arg` — the per-field behaviour of
`ContextSourceStateService.update_state`. -/
def upd {α : Type} (new : Option α) (old : Option α) : Option α :=
  match new with
  | some v => some v
  | none => old

/-- `ContextSourceStateService.update_state`: update state fields,
applying only the non-`None` arguments (the others keep their old value).
Arguments follow the keyword order of the Python signature. -/
def update_state (state : ContextSourceState)
    (last_success_at : Option Int) (last_attempt_at : Option Int)
    (last_error : Option String) (etag : Option String)
    (since_cursor : Option Json) (next_run_at : Option Int) :
    ContextSourceState :=
  ⟨upd last_success_at state.last_success_at,
   upd last_attempt_at state.last_attempt_at,
   upd last_error state.last_error,
   upd etag state.etag,
   upd since_cursor state.since_cursor,
   upd next_run_at state.next_run_at⟩

/-! ### Fetch results (`app/adapters/context_pack_fetcher.py`) -/

/-- `FetchResult`: result of a context pack fetch. -/
structure FetchResult where
  payload : Option MergeableContextPack
  etag : Option String
  cursor : Option Json
  not_modified : Bool
  error : Option String
  deriving DecidableEq

/-! ### Sync orchestrator (`app/commands/sync_context_for_user_command.py`)

The per-source HTTP fetches are the orchestrator's only external effect, so
the embedding takes each enabled source paired with the `FetchResult` its
fetch produced. State rows live in a total map from the source's database id
(`get_or_create_state` supplies `blank_state` on first encounter). -/

/-- `_handle_fetch_error`: record the failure and schedule a short backoff of
`timedelta(minutes=min(60, 2))`, i.e. 120 seconds. -/
def handle_fetch_error (state : ContextSourceState) (error : String)
    (now : Int) : ContextSourceState :=
  update_state state none (some now) (some error) none none (some (now + 120))

/-- `_handle_not_modified`: record the 304 and schedule the next poll. -/
def handle_not_modified (source : ContextSource) (state : ContextSourceState)
    (now : Int) : ContextSourceState :=
  update_state state (some now) none none none none
    (some (now + source.poll_interval_seconds))

/-- `_handle_fetch_success`: record success bookkeeping; note that the
`last_error=None` keyword it passes is skipped by `update_state`. -/
def handle_fetch_success (source : ContextSource)
    (state : ContextSourceState) (result : FetchResult) (now : Int) :
    ContextSourceState :=
  update_state state (some now) (some now) none result.etag result.cursor
    (some (now + source.poll_interval_seconds))

/-- `_process_fetch_result`: branch on the fetch outcome, returning the
updated state row and the pack to merge (if any). -/
def process_fetch_result (source : ContextSource)
    (state : ContextSourceState) (result : FetchResult) (now : Int) :
    ContextSourceState × Option MergeableContextPack :=
  if opt_str_truthy result.error then
    (handle_fetch_error state ((result.error).getD "") now, none)
  else if result.not_modified then
    (handle_not_modified source state now, none)
  else
    match result.payload with
    | some _ => (handle_fetch_success source state result now, result.payload)
    | none => (state, none)

/-- `_fetch_packs_from_sources`: walk the sources in order, update each
one's state row, collect the successful packs in order and whether any
source errored. -/
def fetch_packs_from_sources :
    List (ContextSource × FetchResult) → (Nat → ContextSourceState) → Int →
    List MergeableContextPack × Bool × (Nat → ContextSourceState)
  | [], states, _ => ([], false, states)
  | item :: rest, states, now =>
    let step := process_fetch_result item.1 (states item.1.id) item.2 now
    let states1 := fun i => if i = item.1.id then step.1 else states i
    let r := fetch_packs_from_sources rest states1 now
    (step.2.toList ++ r.1, opt_str_truthy item.2.error || r.2.1, r.2.2)

/-- `SyncContextForUserCommand.execute`: returns the user id (or `none`),
the final state rows, and the snapshot written (if any). -/
def execute (user_id : Nat)
    (items : List (ContextSource × FetchResult))
    (states : Nat → ContextSourceState) (now : Int) :
    Option Nat × (Nat → ContextSourceState) × Option MergedContextPayload :=
  let enabled := items.filter (fun it => it.1.enabled)
  if enabled.isEmpty then (some user_id, states, none)
  else
    let r := fetch_packs_from_sources enabled states now
    if r.1.isEmpty then
      if r.2.1 then (none, r.2.2, none) else (some user_id, r.2.2, none)
    else (some user_id, r.2.2, some (merge_packs r.1 now))

/-! ### Due-pair enumeration (`ContextSourceStateService.get_due_user_source_pairs`) -/

/-- Is the (source, user) pair due? No state row means due; a row is due only
when `next_run_at` is non-null and has elapsed. -/
def due_state (states : Nat → Nat → Option ContextSourceState) (now : Int)
    (sid uid : Nat) : Bool :=
  match states sid uid with
  | none => true
  | some st =>
    match st.next_run_at with
    | none => false
    | some t => decide (t ≤ now)

/-- The nested loop of `get_due_user_source_pairs`: skip already-seen pairs,
append due ones, and return as soon as the result reaches `limit`. The
Python `seen` set always holds exactly the appended pairs, so membership in
the result stands in for it. -/
def get_due_pairs_go (states : Nat → Nat → Option ContextSourceState)
    (now : Int) (limit : Nat) :
    List (Nat × Nat) → List (Nat × Nat) → List (Nat × Nat)
  | [], result => result
  | p :: rest, result =>
    if result.contains p then get_due_pairs_go states now limit rest result
    else if due_state states now p.1 p.2 then
      if limit ≤ (result ++ [p]).length then result ++ [p]
      else get_due_pairs_go states now limit rest (result ++ [p])
    else get_due_pairs_go states now limit rest result

/-- `get_due_user_source_pairs`: enabled, non-deleted sources crossed with
users, filtered to due pairs, deduplicated, cut off at `limit`. -/
def get_due_user_source_pairs (sources : List ContextSource)
    (users : List Nat) (states : Nat → Nat → Option ContextSourceState)
    (now : Int) (limit : Nat) : List (Nat × Nat) :=
  let active := sources.filter (fun s => s.enabled && s.deleted_at.isNone)
  get_due_pairs_go states now limit
    (active.flatMap (fun s => users.map (fun u => (s.id, u)))) []

/-! ### Credential resolution (`app/services/credential_service.py`) -/

/-- `CredentialType` (`app/constants/credentials.py`). -/
inductive CredentialType where
  | bearer_auth
  | basic_auth
  | api_key
  | m2m_identies
  deriving DecidableEq

/-- A credential row together with its decrypted fields
(`get_credential_fields(...) or {}`: decryption failure yields `[]`). -/
structure Credential where
  ctype : CredentialType
  fields : List (String × String)
  deriving DecidableEq

/-- Python truthiness of a string (`if not token`). -/
def str_truthy (s : String) : Bool := !(s == "")

/-- `fields.get(k)`. -/
def get_field (fields : List (String × String)) (k : String) :
    Option String :=
  List.lookup k fields

/-- The `username:password` value that Python base64-encodes into the Basic
authorization header. The exact base64 text never matters to the verified
claims, so the encoding step is left as the identity on this value. -/
def basic_auth_value (username password : String) : String :=
  username ++ ":" ++ password

/-- `CredentialService.apply_credentials`: augment `headers` with auth
material or fail with the `ValueError` message. `m2m_token` is what the
token provider returned (`None` when the identity provider is unreachable)
and `credential` is the row `get_credential(credential_id)` found. -/
def apply_credentials (m2m_token : Option String)
    (credential : Option Credential) (credential_id : Option Nat)
    (headers : List (String × String)) :
    Except String (List (String × String)) :=
  match credential_id with
  | none =>
    match m2m_token with
    | some t =>
      if str_truthy t then
        Except.ok (set_assoc headers "Authorization" ("Bearer " ++ t))
      else Except.error "Default M2M auth requires an M2M token"
    | none => Except.error "Default M2M auth requires an M2M token"
  | some cid =>
    match credential with
    | none => Except.error ("Credential " ++ toString cid ++ " not found")
    | some cred =>
      match cred.ctype with
      | CredentialType.bearer_auth =>
        match get_field cred.fields "token" with
        | some t =>
          if str_truthy t then
            Except.ok (set_assoc headers "Authorization" ("Bearer " ++ t))
          else Except.error "Bearer auth requires a token field"
        | none => Except.error "Bearer auth requires a token field"
      | CredentialType.basic_auth =>
        match get_field cred.fields "username", get_field cred.fields "password" with
        | some u, some p =>
          if str_truthy u && str_truthy p then
            Except.ok (set_assoc headers "Authorization"
              ("Basic " ++ basic_auth_value u p))
          else Except.error "Basic auth requires username and password"
        | _, _ => Except.error "Basic auth requires username and password"
      | CredentialType.api_key =>
        let header_name := (get_field cred.fields "header_name").getD "X-Api-Key"
        match get_field cred.fields "api_key" with
        | some k =>
          if str_truthy k then Except.ok (set_assoc headers header_name k)
          else Except.error "API key auth requires api_key field"
        | none => Except.error "API key auth requires api_key field"
      | CredentialType.m2m_identies =>
        match m2m_token with
        | some t =>
          if str_truthy t then
            Except.ok (set_assoc headers "Authorization" ("Bearer " ++ t))
          else Except.error "M2M Identies auth requires an M2M token"
        | none => Except.error "M2M Identies auth requires an M2M token"

/-! ### Pack fetcher (`app/adapters/context_pack_fetcher.py`) -/

/-- A received HTTP response: status, body text, the outcome of
`resp.json()`, and the `ETag` header. -/
structure HttpResponse where
  status : Nat
  text : String
  json_body : Except String Json
  etag_header : Option String

/-- The outcome of the `requests.get` call: either a raised
`requests.RequestException` or a response. -/
inductive HttpOutcome where
  | request_exception (msg : String)
  | response (r : HttpResponse)

/-- `ContextPackResponse`: the pydantic-validated Context Pack API body. -/
structure ContextPackResponse where
  schema_version : String
  generated_at : Int
  audience : String
  sources : Option (List (String × Json))
  facts : Option (List (String × Json))
  recents : Option (List (String × Json))
  pointers : Option (List (String × List String))

/-- `ContextPackResponse.to_mergeable_pack`. -/
def to_mergeable_pack (pack : ContextPackResponse) (source_id : String) :
    MergeableContextPack :=
  ⟨source_id, pack.schema_version, pack.generated_at,
   (pack.facts).getD [], (pack.recents).getD [], (pack.pointers).getD []⟩

/-- `"<text>".strip('"')`: drop leading and trailing quote characters. -/
def strip_quotes (s : String) : String :=
  let l := s.data.dropWhile (fun c => c == '\"')
  String.mk ((l.reverse.dropWhile (fun c => c == '\"')).reverse)

/-- The cursor scan over `pack.sources.values()`: the first dict with a
truthy `cursor` supplies it. -/
def find_cursor : List (String × Json) → Option Json
  | [] => none
  | (_, Json.obj fs) :: rest =>
    match List.lookup "cursor" fs with
    | some c => if c.truthy then some c else find_cursor rest
    | none => find_cursor rest
  | _ :: rest => find_cursor rest

/-- `if pack.sources:` followed by the cursor scan. -/
def extract_cursor (sources : Option (List (String × Json))) : Option Json :=
  match sources with
  | some srcs => if srcs.isEmpty then none else find_cursor srcs
  | none => none

/-- The header set the fetcher builds before resolving credentials. -/
def accept_headers : List (String × String) := [("Accept", "application/json")]

/-- `ContextPackFetcher.fetch`. Besides the `FetchResult`, the embedding
returns whether the outbound HTTP request was issued. `validate` stands for
`ContextPackResponse.model_validate` on the parsed JSON body, and
`outcome` for what `requests.get` did when called. -/
def fetch (m2m_token : Option String) (credential : Option Credential)
    (validate : Json → Except String ContextPackResponse)
    (source : ContextSource) (state : Option ContextSourceState)
    (outcome : HttpOutcome) : FetchResult × Bool :=
  match apply_credentials m2m_token credential source.credential_id
      accept_headers with
  | Except.error e => (⟨none, none, none, false, some e⟩, false)
  | Except.ok _ =>
    match outcome with
    | HttpOutcome.request_exception msg =>
      (⟨none, none, none, false, some msg⟩, true)
    | HttpOutcome.response r =>
      if r.status = 304 then
        (⟨none, state.bind (fun st => st.etag), none, true, none⟩, true)
      else if r.status ≠ 200 then
        (⟨none, none, none, false,
          some ("HTTP " ++ toString r.status ++ ": " ++
            (if str_truthy r.text then r.text.take 500 else "no body"))⟩, true)
      else
        match r.json_body with
        | Except.error e =>
          (⟨none, none, none, false, some ("Invalid JSON: " ++ e)⟩, true)
        | Except.ok data =>
          match validate data with
          | Except.error e =>
            (⟨none, none, none, false,
              some ("Invalid context pack: " ++ e)⟩, true)
          | Except.ok pack =>
            let etag :=
              match r.etag_header with
              | some h =>
                if str_truthy h then some (strip_quotes h) else none
              | none => none
            (⟨some (to_mergeable_pack pack source.source_id), etag,
              extract_cursor pack.sources, false, none⟩, true)

/-! ## Helper lemmas -/

theorem lookup_append {α : Type} (k : String) (l1 l2 : List (String × α)) :
    List.lookup k (l1 ++ l2) = (List.lookup k l1).or (List.lookup k l2) := by
  induction l1 with
  | nil => simp [List.lookup]
  | cons x l1 ih =>
    by_cases h : k = x.1
    · simp [List.lookup, h]
    · have hb : (k == x.1) = false := beq_false_of_ne h
      simp [List.lookup, hb, ih]

theorem lookup_insert_fact (m : List (String × Json)) (kv : String × Json)
    (k : String) :
    List.lookup k (insert_fact m kv) =
      (List.lookup k m).or (if k = kv.1 then some kv.2 else none) := by
  unfold insert_fact
  by_cases hs : (List.lookup kv.1 m).isSome
  · simp only [hs, if_true]
    by_cases h : k = kv.1
    · subst h
      rcases Option.isSome_iff_exists.mp hs with ⟨v, hv⟩
      simp [hv, Option.or]
    · simp [h]
  · rw [if_neg hs, lookup_append]
    by_cases h : k = kv.1
    · subst h
      simp [List.lookup]
    · have hb : (k == kv.1) = false := beq_false_of_ne h
      simp [List.lookup, hb, h]

theorem lookup_foldl_insert_fact (l : List (String × Json))
    (m : List (String × Json)) (k : String) :
    List.lookup k (l.foldl insert_fact m) =
      (List.lookup k m).or (List.lookup k l) := by
  induction l generalizing m with
  | nil => simp [List.lookup]
  | cons kv l ih =>
    rw [List.foldl_cons, ih, lookup_insert_fact, Option.or_assoc]
    congr 1
    by_cases h : k = kv.1
    · subst h
      simp [List.lookup]
    · have hb : (k == kv.1) = false := beq_false_of_ne h
      simp [List.lookup, hb, h]

theorem lookup_merge_facts_aux (packs : List MergeableContextPack)
    (m : List (String × Json)) (k : String) :
    List.lookup k
        (packs.foldl (fun m pack => pack.facts.foldl insert_fact m) m) =
      (List.lookup k m).or
        (List.lookup k ((packs.map MergeableContextPack.facts).flatten)) := by
  induction packs generalizing m with
  | nil => simp [List.lookup]
  | cons p packs ih =>
    rw [List.foldl_cons, ih, lookup_foldl_insert_fact]
    simp [lookup_append, Option.or_assoc]

/-- C4: merged facts take each key from the first pack (in list order) that
defines it — looking a key up in the merge result is looking it up in the
in-order concatenation of the packs' facts — and on the spec's example
`[{facts:{a:"x"}}, {facts:{a:"y", b:"z"}}]` the merge yields
`{a:"x", b:"z"}`. -/
theorem C4_facts_first_pack_wins :
    (∀ (packs : List MergeableContextPack) (k : String),
        List.lookup k (merge_facts packs) =
          List.lookup k ((packs.map MergeableContextPack.facts).flatten))
    ∧ merge_facts
        [⟨"p1", "1.0", 0, [("a", Json.str "x")], [], []⟩,
         ⟨"p2", "1.0", 0, [("a", Json.str "y"), ("b", Json.str "z")], [], []⟩] =
        [("a", Json.str "x"), ("b", Json.str "z")] := by
  constructor
  · intro packs k
    unfold merge_facts
    rw [lookup_merge_facts_aux]
    simp [List.lookup]
  · decide

/-- C7 counterexample: `merge_packs` on the empty list reads the wall
clock for `generated_at`, so two calls of `merge(packs)` on the same
(empty) input at different times are not byte-identical. -/
theorem C7_counterexample_empty_input_reads_clock :
    merge_packs [] 0 ≠ merge_packs [] 1 := by decide

/-- C7 (amended): for every non-empty pack list the merge is a pure
function of the packs — two calls at different wall-clock instants agree
byte for byte — while the empty-input payload has the schema-version
default and all maps empty but carries the wall clock as `generated_at`
(so only its `generated_at` varies between calls). -/
theorem C7_merge_deterministic_on_nonempty :
    (∀ (packs : List MergeableContextPack) (now1 now2 : Int),
        packs ≠ [] → merge_packs packs now1 = merge_packs packs now2)
    ∧ (∀ now : Int, merge_packs [] now = ⟨"1.0", now, [], [], []⟩) := by
  constructor
  · intro packs now1 now2 h
    cases packs with
    | nil => exact absurd rfl h
    | cons p rest => rfl
  · intro now
    rfl

/-- C7 witness: the determinism theorem applied to a concrete singleton
pack list at wall-clock instants 0 and 99, and the empty input at 42. -/
theorem C7_merge_deterministic_witness :
    merge_packs [⟨"s", "1.0", 7, [("a", Json.str "x")], [], []⟩] 0 =
      merge_packs [⟨"s", "1.0", 7, [("a", Json.str "x")], [], []⟩] 99
    ∧ merge_packs [] 42 = ⟨"1.0", 42, [], [], []⟩ :=
  ⟨C7_merge_deterministic_on_nonempty.1 _ 0 99 (by decide),
   C7_merge_deterministic_on_nonempty.2 42⟩

/-- C2 (code bug): success bookkeeping passes `last_error=None` to
`update_state`, which skips `None` arguments, so a state row whose
`last_error` was `"HTTP 500: boom"` still carries it after a successful
fetch — everything else (success/attempt times, ETag, cursor, next run)
is updated as the claim states. -/
theorem C2_success_does_not_clear_last_error :
    (process_fetch_result
        ⟨1, "linden", "https://linden", none, 3600, true, none⟩
        ⟨none, some 50, some "HTTP 500: boom", some "old-etag", none, some 60⟩
        ⟨some ⟨"linden", "1.0", 900, [("a", Json.str "x")], [], []⟩,
         some "W1", some (Json.str "cur"), false, none⟩
        1000).1 =
      ⟨some 1000, some 1000, some "HTTP 500: boom", some "W1",
       some (Json.str "cur"), some 4600⟩
    ∧ (process_fetch_result
        ⟨1, "linden", "https://linden", none, 3600, true, none⟩
        ⟨none, some 50, some "HTTP 500: boom", some "old-etag", none, some 60⟩
        ⟨some ⟨"linden", "1.0", 900, [("a", Json.str "x")], [], []⟩,
         some "W1", some (Json.str "cur"), false, none⟩
        1000).1.last_error ≠ none := by
  constructor
  · decide
  · decide

/-! ## Orchestrator lemmas -/

/-- The pack a single source contributes to the merge set, as a function of
its fetch result alone. -/
def pack_opt (r : FetchResult) : Option MergeableContextPack :=
  if opt_str_truthy r.error then none
  else if r.not_modified then none
  else r.payload

theorem process_fetch_result_snd (s : ContextSource)
    (st : ContextSourceState) (r : FetchResult) (now : Int) :
    (process_fetch_result s st r now).2 = pack_opt r := by
  unfold process_fetch_result pack_opt
  by_cases he : opt_str_truthy r.error = true
  · simp [he]
  · by_cases hm : r.not_modified = true
    · simp [he, hm]
    · cases hp : r.payload <;> simp [he, hm, hp]

theorem fetch_packs_packs_eq (items : List (ContextSource × FetchResult))
    (states : Nat → ContextSourceState) (now : Int) :
    (fetch_packs_from_sources items states now).1 =
      items.flatMap (fun it => (pack_opt it.2).toList) := by
  induction items generalizing states with
  | nil => rfl
  | cons item rest ih =>
    simp [fetch_packs_from_sources, process_fetch_result_snd, ih]

theorem fetch_packs_err_eq (items : List (ContextSource × FetchResult))
    (states : Nat → ContextSourceState) (now : Int) :
    (fetch_packs_from_sources items states now).2.1 =
      items.any (fun it => opt_str_truthy it.2.error) := by
  induction items generalizing states with
  | nil => rfl
  | cons item rest ih =>
    simp [fetch_packs_from_sources, ih]

theorem fetch_packs_states_other (items : List (ContextSource × FetchResult))
    (states : Nat → ContextSourceState) (now : Int) (i : Nat)
    (h : ∀ it ∈ items, it.1.id ≠ i) :
    (fetch_packs_from_sources items states now).2.2 i = states i := by
  induction items generalizing states with
  | nil => rfl
  | cons item rest ih =>
    have hhead : item.1.id ≠ i := h item (List.mem_cons_self _ _)
    have htail : ∀ it ∈ rest, it.1.id ≠ i :=
      fun it hit => h it (List.mem_cons_of_mem _ hit)
    show (fetch_packs_from_sources rest _ now).2.2 i = states i
    rw [ih _ htail]
    have hni : i ≠ item.1.id := fun hc => hhead hc.symm
    simp [hni]

theorem fetch_packs_states_at (items : List (ContextSource × FetchResult))
    (states : Nat → ContextSourceState) (now : Int)
    (hnd : (items.map (fun it => it.1.id)).Nodup) :
    ∀ it ∈ items,
      (fetch_packs_from_sources items states now).2.2 it.1.id =
        (process_fetch_result it.1 (states it.1.id) it.2 now).1 := by
  induction items generalizing states with
  | nil => intro it hit; cases hit
  | cons item rest ih =>
    intro it hit
    have hnotin : item.1.id ∉ rest.map (fun it => it.1.id) :=
      (List.nodup_cons.mp hnd).1
    rcases List.mem_cons.mp hit with heq | hmem
    · subst heq
      have hothers : ∀ x ∈ rest, x.1.id ≠ it.1.id := by
        intro x hx hc
        exact hnotin (hc ▸ List.mem_map_of_mem (fun y => y.1.id) hx)
      show (fetch_packs_from_sources rest _ now).2.2 it.1.id = _
      rw [fetch_packs_states_other _ _ _ _ hothers]
      simp
    · have hne : it.1.id ≠ item.1.id := by
        intro hc
        exact hnotin (hc ▸ List.mem_map_of_mem (fun y => y.1.id) hmem)
      have key := ih
        (fun i => if i = item.1.id then
          (process_fetch_result item.1 (states item.1.id) item.2 now).1
          else states i)
        ((List.nodup_cons.mp hnd).2) it hmem
      show (fetch_packs_from_sources rest _ now).2.2 it.1.id = _
      rw [key]
      simp [hne]

/-- C1: the orchestrator returns `none` exactly when the collected merge
set is empty and some enabled source's fetch reported an error; with zero
enabled sources it returns the user id untouched. The embedding is a total
function — every per-source outcome is a `FetchResult` value, never a
propagated exception. -/
theorem C1_execute_none_iff_empty_and_errors :
    (∀ (user : Nat) (items : List (ContextSource × FetchResult))
        (states : Nat → ContextSourceState) (now : Int),
      (execute user items states now).1 = none ↔
        ((fetch_packs_from_sources (items.filter (fun it => it.1.enabled))
            states now).1 = []
         ∧ (fetch_packs_from_sources (items.filter (fun it => it.1.enabled))
            states now).2.1 = true))
    ∧ (∀ (user : Nat) (items : List (ContextSource × FetchResult))
        (states : Nat → ContextSourceState) (now : Int),
      items.filter (fun it => it.1.enabled) = [] →
        execute user items states now = (some user, states, none)) := by
  constructor
  · intro user items states now
    unfold execute
    by_cases hE : (items.filter (fun it => it.1.enabled)).isEmpty
    · rw [List.isEmpty_iff] at hE
      simp [hE, fetch_packs_from_sources]
    · simp only [hE, Bool.false_eq_true, if_false]
      by_cases hp :
          (fetch_packs_from_sources (items.filter (fun it => it.1.enabled))
            states now).1.isEmpty
      · rw [List.isEmpty_iff] at hp
        by_cases he :
            (fetch_packs_from_sources (items.filter (fun it => it.1.enabled))
              states now).2.1
        · simp [hp, he, List.isEmpty_iff]
        · simp [hp, he, List.isEmpty_iff]
      · have hne :
            (fetch_packs_from_sources (items.filter (fun it => it.1.enabled))
              states now).1 ≠ [] := by
          intro hc
          exact hp (by rw [hc]; rfl)
        simp [List.isEmpty_iff, hne]
  · intro user items states now h
    simp [execute, h]

/-- C1 witness: with one enabled source whose fetch errored, the command
returns `none`; with no sources it returns the user id. -/
theorem C1_execute_none_witness :
    (execute 9
      [(⟨1, "s", "https://s", none, 3600, true, none⟩,
        ⟨none, none, none, false, some "HTTP 401: no"⟩)]
      (fun _ => blank_state) 0).1 = none
    ∧ execute 9 [] (fun _ => blank_state) 0 =
        (some 9, fun _ => blank_state, none) :=
  ⟨(C1_execute_none_iff_empty_and_errors.1 9 _ (fun _ => blank_state) 0).mpr
      ⟨by decide, by decide⟩,
   C1_execute_none_iff_empty_and_errors.2 9 [] (fun _ => blank_state) 0 rfl⟩

theorem process_fetch_result_304 (s : ContextSource)
    (st : ContextSourceState) (r : FetchResult) (now : Int)
    (he : r.error = none) (hm : r.not_modified = true) :
    (process_fetch_result s st r now).1 = handle_not_modified s st now := by
  simp [process_fetch_result, he, hm, opt_str_truthy]

theorem fetch_packs_all_304 (items : List (ContextSource × FetchResult))
    (states : Nat → ContextSourceState) (now : Int)
    (h : ∀ it ∈ items, it.2.error = none ∧ it.2.not_modified = true) :
    (fetch_packs_from_sources items states now).1 = []
    ∧ (fetch_packs_from_sources items states now).2.1 = false := by
  constructor
  · rw [fetch_packs_packs_eq]
    apply List.flatMap_eq_nil_iff.mpr
    intro it hit
    rcases h it hit with ⟨he, hm⟩
    simp [pack_opt, he, hm, opt_str_truthy]
  · rw [fetch_packs_err_eq]
    apply List.any_eq_false.mpr
    intro it hit
    rcases h it hit with ⟨he, _⟩
    simp [he, opt_str_truthy]

theorem execute_all_304 (user : Nat)
    (items : List (ContextSource × FetchResult))
    (states : Nat → ContextSourceState) (now : Int)
    (h : ∀ it ∈ items.filter (fun it => it.1.enabled),
      it.2.error = none ∧ it.2.not_modified = true) :
    execute user items states now =
      (some user,
       (fetch_packs_from_sources (items.filter (fun it => it.1.enabled))
         states now).2.2,
       none) := by
  unfold execute
  by_cases hE : (items.filter (fun it => it.1.enabled)).isEmpty
  · rw [List.isEmpty_iff] at hE
    simp [hE, fetch_packs_from_sources]
  · rcases fetch_packs_all_304 _ states now h with ⟨hp, he⟩
    simp [hE, hp, he]

/-- C8: when every enabled source's fetch comes back 304, the run writes no
snapshot, returns the user id, and moves each enabled source's state row to
`last_success_at = now` and `next_run_at = now + poll_interval`; a second
all-304 run at a later instant again writes nothing and advances
`next_run_at` monotonically. -/
theorem C8_all_304_idempotent (user : Nat)
    (items : List (ContextSource × FetchResult))
    (states : Nat → ContextSourceState) (now1 now2 : Int)
    (h304 : ∀ it ∈ items.filter (fun it => it.1.enabled),
      it.2.error = none ∧ it.2.not_modified = true)
    (hids : ((items.filter (fun it => it.1.enabled)).map
      (fun it => it.1.id)).Nodup)
    (hmono : now1 ≤ now2) :
    (execute user items states now1).1 = some user
    ∧ (execute user items states now1).2.2 = none
    ∧ (execute user items ((execute user items states now1).2.1) now2).1 =
        some user
    ∧ (execute user items ((execute user items states now1).2.1) now2).2.2 =
        none
    ∧ ∀ it ∈ items.filter (fun it => it.1.enabled),
        ((execute user items states now1).2.1 it.1.id).last_success_at =
          some now1
        ∧ ((execute user items states now1).2.1 it.1.id).next_run_at =
            some (now1 + it.1.poll_interval_seconds)
        ∧ ((execute user items ((execute user items states now1).2.1)
              now2).2.1 it.1.id).last_success_at = some now2
        ∧ ((execute user items ((execute user items states now1).2.1)
              now2).2.1 it.1.id).next_run_at =
            some (now2 + it.1.poll_interval_seconds)
        ∧ now1 + it.1.poll_interval_seconds ≤
            now2 + it.1.poll_interval_seconds := by
  have hrun1 := execute_all_304 user items states now1 h304
  have hrun2 := execute_all_304 user items
    ((execute user items states now1).2.1) now2 h304
  refine ⟨by rw [hrun1], by rw [hrun1], by rw [hrun2], by rw [hrun2], ?_⟩
  intro it hit
  have hst1 :
      (execute user items states now1).2.1 it.1.id =
        handle_not_modified it.1 (states it.1.id) now1 := by
    rw [hrun1]
    dsimp only
    rw [fetch_packs_states_at _ states now1 hids it hit]
    exact process_fetch_result_304 _ _ _ _ (h304 it hit).1 (h304 it hit).2
  have hst2 :
      (execute user items ((execute user items states now1).2.1) now2).2.1
          it.1.id =
        handle_not_modified it.1
          (((execute user items states now1).2.1) it.1.id) now2 := by
    rw [hrun2]
    dsimp only
    rw [fetch_packs_states_at _ _ now2 hids it hit]
    exact process_fetch_result_304 _ _ _ _ (h304 it hit).1 (h304 it hit).2
  refine ⟨?_, ?_, ?_, ?_, Int.add_le_add_right hmono _⟩
  · rw [hst1]; rfl
  · rw [hst1]; rfl
  · rw [hst2]; rfl
  · rw [hst2]; rfl

/-- C8 witness: one enabled source answering 304 at instants 0 and 10 —
no snapshot, user id returned, and `next_run_at` rescheduled. -/
theorem C8_all_304_witness :
    (execute 5
        [(⟨1, "s", "https://s", none, 3600, true, none⟩,
          ⟨none, none, none, true, none⟩)]
        (fun _ => blank_state) 0).1 = some 5
    ∧ (execute 5
        [(⟨1, "s", "https://s", none, 3600, true, none⟩,
          ⟨none, none, none, true, none⟩)]
        (fun _ => blank_state) 0).2.2 = none
    ∧ ((execute 5
        [(⟨1, "s", "https://s", none, 3600, true, none⟩,
          ⟨none, none, none, true, none⟩)]
        (fun _ => blank_state) 0).2.1 1).next_run_at = some (0 + 3600) := by
  have h := C8_all_304_idempotent 5
    [(⟨1, "s", "https://s", none, 3600, true, none⟩,
      ⟨none, none, none, true, none⟩)]
    (fun _ => blank_state) 0 10 (by decide) (by decide) (by decide)
  exact ⟨h.1, h.2.1,
    (h.2.2.2.2
      (⟨1, "s", "https://s", none, 3600, true, none⟩,
        ⟨none, none, none, true, none⟩) (by decide)).2.1⟩

/-- C9: when credential resolution fails (missing M2M token, credential not
found, or a missing required field — every `Except.error` outcome of
`apply_credentials`), `fetch` returns a `FetchResult` with `error` set to
that message, no payload, `not_modified = false`, and the outbound-request
flag false (no HTTP call). And an errored source never aborts the rest of
the run: the orchestrator's merge set over `xs ++ bad :: ys` is exactly the
merge set of `xs` followed by that of `ys`, with the error only raising the
`had_fetch_errors` flag. -/
theorem C9_credential_failure_short_circuits :
    (∀ (m2m_token : Option String) (credential : Option Credential)
        (validate : Json → Except String ContextPackResponse)
        (source : ContextSource) (state : Option ContextSourceState)
        (outcome : HttpOutcome) (e : String),
      apply_credentials m2m_token credential source.credential_id
          accept_headers = Except.error e →
      fetch m2m_token credential validate source state outcome =
        (⟨none, none, none, false, some e⟩, false))
    ∧ (∀ (xs ys : List (ContextSource × FetchResult))
        (bad : ContextSource × FetchResult)
        (states : Nat → ContextSourceState) (now : Int),
      opt_str_truthy bad.2.error = true →
      (fetch_packs_from_sources (xs ++ bad :: ys) states now).1 =
        (fetch_packs_from_sources xs states now).1 ++
          (fetch_packs_from_sources ys states now).1
      ∧ (fetch_packs_from_sources (xs ++ bad :: ys) states now).2.1 = true) := by
  constructor
  · intro m2m_token credential validate source state outcome e h
    unfold fetch
    rw [h]
  · intro xs ys bad states now hbad
    constructor
    · rw [fetch_packs_packs_eq, fetch_packs_packs_eq, fetch_packs_packs_eq]
      simp [pack_opt, hbad]
    · rw [fetch_packs_err_eq]
      simp [hbad]

/-- C9 witness: a source with no credential reference and no M2M token
available — resolution fails, the fetch reports it without issuing the
request, and a run with a good source on each side still collects both
neighbours' packs. -/
theorem C9_credential_failure_witness :
    fetch none none (fun _ => Except.error "unused")
        ⟨1, "s", "https://s", none, 3600, true, none⟩ none
        (HttpOutcome.request_exception "unused") =
      (⟨none, none, none, false,
        some "Default M2M auth requires an M2M token"⟩, false)
    ∧ (fetch_packs_from_sources
        ([(⟨2, "a", "https://a", none, 60, true, none⟩,
           ⟨some ⟨"a", "1.0", 1, [], [], []⟩, none, none, false, none⟩)] ++
          (⟨3, "b", "https://b", none, 60, true, none⟩,
           (⟨none, none, none, false, some "HTTP 401: no"⟩ : FetchResult)) ::
          [(⟨4, "c", "https://c", none, 60, true, none⟩,
           ⟨some ⟨"c", "1.0", 2, [], [], []⟩, none, none, false, none⟩)])
        (fun _ => blank_state) 0).1 =
      [⟨"a", "1.0", 1, [], [], []⟩, ⟨"c", "1.0", 2, [], [], []⟩] := by
  constructor
  · exact C9_credential_failure_short_circuits.1 none none
      (fun _ => Except.error "unused")
      ⟨1, "s", "https://s", none, 3600, true, none⟩ none
      (HttpOutcome.request_exception "unused")
      "Default M2M auth requires an M2M token" rfl
  · have h := C9_credential_failure_short_circuits.2
      [(⟨2, "a", "https://a", none, 60, true, none⟩,
        ⟨some ⟨"a", "1.0", 1, [], [], []⟩, none, none, false, none⟩)]
      [(⟨4, "c", "https://c", none, 60, true, none⟩,
        ⟨some ⟨"c", "1.0", 2, [], [], []⟩, none, none, false, none⟩)]
      (⟨3, "b", "https://b", none, 60, true, none⟩,
        ⟨none, none, none, false, some "HTTP 401: no"⟩)
      (fun _ => blank_state) 0 (by decide)
    rw [h.1]
    decide

/-! ## Due-pair enumeration lemmas -/

theorem due_state_true_iff (states : Nat → Nat → Option ContextSourceState)
    (now : Int) (sid uid : Nat) :
    due_state states now sid uid = true ↔
      (states sid uid = none
       ∨ ∃ st t, states sid uid = some st ∧ st.next_run_at = some t
           ∧ t ≤ now) := by
  cases hs : states sid uid with
  | none => simp [due_state, hs]
  | some st =>
    cases hn : st.next_run_at with
    | none => simp [due_state, hs, hn]
    | some t => simp [due_state, hs, hn]

theorem get_due_pairs_go_length
    (states : Nat → Nat → Option ContextSourceState) (now : Int)
    (limit : Nat) (pairs : List (Nat × Nat)) (res : List (Nat × Nat))
    (h : res.length < limit) :
    (get_due_pairs_go states now limit pairs res).length ≤ limit := by
  induction pairs generalizing res with
  | nil => exact Nat.le_of_lt h
  | cons p rest ih =>
    rw [get_due_pairs_go]
    split_ifs with h1 h2 h3
    · exact ih res h
    · simpa using h
    · exact ih (res ++ [p]) (Nat.lt_of_not_le (by simpa using h3))
    · exact ih res h

theorem get_due_pairs_go_invariant
    (states : Nat → Nat → Option ContextSourceState) (now : Int)
    (limit : Nat) (pairs : List (Nat × Nat)) (res : List (Nat × Nat))
    (hdue : ∀ p ∈ res, due_state states now p.1 p.2 = true)
    (hnd : res.Nodup) :
    (∀ p ∈ get_due_pairs_go states now limit pairs res,
        due_state states now p.1 p.2 = true)
    ∧ (get_due_pairs_go states now limit pairs res).Nodup := by
  induction pairs generalizing res with
  | nil => exact ⟨hdue, hnd⟩
  | cons p rest ih =>
    rw [get_due_pairs_go]
    have hext : due_state states now p.1 p.2 = true → ¬res.contains p = true →
        (∀ q ∈ res ++ [p], due_state states now q.1 q.2 = true)
        ∧ (res ++ [p]).Nodup := by
      intro hd hc
      have hpnot : p ∉ res := by simpa using hc
      refine ⟨?_, ?_⟩
      · intro q hq
        rcases List.mem_append.mp hq with hq | hq
        · exact hdue q hq
        · rcases List.mem_singleton.mp hq with rfl
          exact hd
      · simp [List.nodup_append, hnd, hpnot]
    split_ifs with h1 h2 h3
    · exact ih res hdue hnd
    · exact hext h2 h1
    · exact ih (res ++ [p]) (hext h2 h1).1 (hext h2 h1).2
    · exact ih res hdue hnd

/-- C10 counterexample: with `limit = 0` the length check only runs after
the first append, so one due pair is still returned — the result's length
exceeds the given limit. -/
theorem C10_counterexample_limit_zero :
    get_due_user_source_pairs
        [⟨7, "s", "https://s", none, 3600, true, none⟩] [3]
        (fun _ _ => none) 0 0 = [(7, 3)]
    ∧ ¬((get_due_user_source_pairs
        [⟨7, "s", "https://s", none, 3600, true, none⟩] [3]
        (fun _ _ => none) 0 0).length ≤ 0) := by
  constructor
  · decide
  · decide

/-- C10 (amended): every returned pair either has no state row or a
non-null `next_run_at ≤ now` (a row with null `next_run_at` is never due);
each pair appears at most once; and for every `limit ≥ 1` the result's
length is at most `limit` (with `limit = 0` a single due pair can still be
returned). -/
theorem C10_due_pairs_properties (sources : List ContextSource)
    (users : List Nat) (states : Nat → Nat → Option ContextSourceState)
    (now : Int) (limit : Nat) :
    (∀ p ∈ get_due_user_source_pairs sources users states now limit,
        states p.1 p.2 = none
        ∨ ∃ st t, states p.1 p.2 = some st ∧ st.next_run_at = some t
            ∧ t ≤ now)
    ∧ (get_due_user_source_pairs sources users states now limit).Nodup
    ∧ (1 ≤ limit →
        (get_due_user_source_pairs sources users states now limit).length ≤
          limit) := by
  have hinv := get_due_pairs_go_invariant states now limit
    (((sources.filter (fun s => s.enabled && s.deleted_at.isNone)).flatMap
      (fun s => users.map (fun u => (s.id, u))))) []
    (by intro p hp; cases hp) List.nodup_nil
  refine ⟨?_, hinv.2, ?_⟩
  · intro p hp
    exact (due_state_true_iff states now p.1 p.2).mp (hinv.1 p hp)
  · intro hlim
    exact get_due_pairs_go_length states now limit _ [] hlim

/-- C10 witness: a row with null `next_run_at` is skipped while the
stateless pair of the same source is returned, within limit 5. -/
theorem C10_due_pairs_witness :
    (∀ p ∈ get_due_user_source_pairs
        [⟨7, "s", "https://s", none, 3600, true, none⟩] [3, 4]
        (fun sid uid => if sid = 7 ∧ uid = 3 then some blank_state else none)
        0 5,
      (fun sid uid => if sid = 7 ∧ uid = 3 then some blank_state else none)
          p.1 p.2 = none
      ∨ ∃ st t,
          (fun sid uid =>
            if sid = 7 ∧ uid = 3 then some blank_state else none) p.1 p.2 =
            some st ∧ st.next_run_at = some t ∧ t ≤ 0)
    ∧ (get_due_user_source_pairs
        [⟨7, "s", "https://s", none, 3600, true, none⟩] [3, 4]
        (fun sid uid => if sid = 7 ∧ uid = 3 then some blank_state else none)
        0 5).Nodup
    ∧ (get_due_user_source_pairs
        [⟨7, "s", "https://s", none, 3600, true, none⟩] [3, 4]
        (fun sid uid => if sid = 7 ∧ uid = 3 then some blank_state else none)
        0 5).length ≤ 5 := by
  have h := C10_due_pairs_properties
    [⟨7, "s", "https://s", none, 3600, true, none⟩] [3, 4]
    (fun sid uid => if sid = 7 ∧ uid = 3 then some blank_state else none) 0 5
  exact ⟨h.1, h.2.1, h.2.2 (by decide)⟩

/-! ## Facts-cap lemmas -/

theorem truncate_facts_go_size (mb : Nat) (l acc : List (String × Json))
    (h : Json.dumpsBytes (Json.obj acc) ≤ mb) :
    Json.dumpsBytes (Json.obj (truncate_facts_go mb acc l)) ≤ mb := by
  induction l generalizing acc with
  | nil => exact h
  | cons kv rest ih =>
    rw [truncate_facts_go]
    split_ifs with hc
    · exact ih (acc ++ [kv]) hc
    · exact h

theorem truncate_facts_go_spec (mb : Nat) (l acc : List (String × Json)) :
    ∃ i ≤ l.length,
      truncate_facts_go mb acc l = acc ++ l.take i
      ∧ (∀ j < i, Json.dumpsBytes (Json.obj (acc ++ l.take (j + 1))) ≤ mb)
      ∧ (i < l.length →
          mb < Json.dumpsBytes (Json.obj (acc ++ l.take (i + 1)))) := by
  induction l generalizing acc with
  | nil =>
    refine ⟨0, Nat.le_refl 0, by simp [truncate_facts_go], ?_, ?_⟩
    · intro j hj; cases hj
    · intro hlt; cases hlt
  | cons kv rest ih =>
    rw [truncate_facts_go]
    split_ifs with hc
    · rcases ih (acc ++ [kv]) with ⟨i, hle, heq, hall, hlast⟩
      refine ⟨i + 1, by simpa using Nat.succ_le_succ hle, ?_, ?_, ?_⟩
      · rw [heq, List.take_succ_cons]
        simp
      · intro j hj
        cases j with
        | zero => simpa using hc
        | succ j' =>
          have := hall j' (Nat.lt_of_succ_lt_succ hj)
          rw [List.take_succ_cons]
          simpa using this
      · intro hlt
        have := hlast (Nat.lt_of_succ_lt_succ (by simpa using hlt))
        rw [List.take_succ_cons]
        simpa using this
    · refine ⟨0, Nat.zero_le _, by simp, ?_, ?_⟩
      · intro j hj; cases hj
      · intro _
        rw [List.take_succ_cons, List.take_zero]
        exact Nat.lt_of_not_le hc

theorem insert_sorted_perm (kv : String × Json) (l : List (String × Json)) :
    (insert_sorted kv l).Perm (kv :: l) := by
  induction l with
  | nil => exact List.Perm.refl _
  | cons x rest ih =>
    rw [insert_sorted]
    split_ifs with h
    · exact List.Perm.refl _
    · exact (ih.cons x).trans (List.Perm.swap kv x rest)

theorem sorted_by_key_perm (l : List (String × Json)) :
    (sorted_by_key l).Perm l := by
  induction l with
  | nil => exact List.Perm.refl _
  | cons x rest ih =>
    exact (insert_sorted_perm x (sorted_by_key rest)).trans (ih.cons x)

/-- C3: facts already within the 8 KiB budget pass through unchanged; an
over-budget facts map is replaced by a prefix of its entries in sorted key
order — whole entries only, all taken from the pre-truncation map — cut
exactly before the first key whose addition would exceed the budget, and
the result's serialized size is within the budget. `merge_packs` applies
precisely this cap to its merged facts. -/
theorem C3_facts_byte_cap (facts : List (String × Json)) :
    (Json.dumpsBytes (Json.obj facts) ≤ FACTS_MAX_BYTES →
      apply_facts_cap facts = facts)
    ∧ (FACTS_MAX_BYTES < Json.dumpsBytes (Json.obj facts) →
        apply_facts_cap facts = truncate_facts facts FACTS_MAX_BYTES
        ∧ Json.dumpsBytes (Json.obj (apply_facts_cap facts)) ≤ FACTS_MAX_BYTES
        ∧ (∀ kv ∈ apply_facts_cap facts, kv ∈ facts)
        ∧ ∃ i ≤ (sorted_by_key facts).length,
            apply_facts_cap facts = (sorted_by_key facts).take i
            ∧ (∀ j < i,
                Json.dumpsBytes
                  (Json.obj ((sorted_by_key facts).take (j + 1))) ≤
                  FACTS_MAX_BYTES)
            ∧ (i < (sorted_by_key facts).length →
                FACTS_MAX_BYTES <
                  Json.dumpsBytes
                    (Json.obj ((sorted_by_key facts).take (i + 1)))))
    ∧ (∀ (p : MergeableContextPack) (rest : List MergeableContextPack)
        (now : Int),
        (merge_packs (p :: rest) now).facts =
          apply_facts_cap (merge_facts (p :: rest))) := by
  refine ⟨?_, ?_, fun p rest now => rfl⟩
  · intro h
    rw [apply_facts_cap, if_neg (Nat.not_lt.mpr h)]
  · intro hgt
    have heq : apply_facts_cap facts = truncate_facts facts FACTS_MAX_BYTES := by
      rw [apply_facts_cap, if_pos hgt]
    have hsize :
        Json.dumpsBytes (Json.obj (truncate_facts facts FACTS_MAX_BYTES)) ≤
          FACTS_MAX_BYTES := by
      exact truncate_facts_go_size FACTS_MAX_BYTES (sorted_by_key facts) []
        (by decide)
    rcases truncate_facts_go_spec FACTS_MAX_BYTES (sorted_by_key facts) []
      with ⟨i, hle, hval, hall, hlast⟩
    rw [List.nil_append] at hval
    have hpref : truncate_facts facts FACTS_MAX_BYTES =
        (sorted_by_key facts).take i := hval
    refine ⟨heq, heq ▸ hsize, ?_, ?_⟩
    · intro kv hkv
      rw [heq, hpref] at hkv
      exact (sorted_by_key_perm facts).subset (List.take_subset i _ hkv)
    · refine ⟨i, hle, heq.trans hpref, ?_, ?_⟩
      · intro j hj
        simpa using hall j hj
      · intro hlt
        simpa using hlast hlt

set_option maxRecDepth 40000 in
/-- C3 witness: a ten-key facts map serializing to 8600 bytes is truncated
back under the 8192-byte budget, while a small facts map passes through
unchanged. -/
theorem C3_facts_byte_cap_witness :
    FACTS_MAX_BYTES <
      Json.dumpsBytes (Json.obj ((List.range 10).map
        (fun i => ("k" ++ toString i,
          Json.str (String.mk (List.replicate 850 'a'))))))
    ∧ Json.dumpsBytes (Json.obj (apply_facts_cap ((List.range 10).map
        (fun i => ("k" ++ toString i,
          Json.str (String.mk (List.replicate 850 'a'))))))) ≤
        FACTS_MAX_BYTES
    ∧ apply_facts_cap [("a", Json.str "x")] = [("a", Json.str "x")] := by
  have hgt : FACTS_MAX_BYTES <
      Json.dumpsBytes (Json.obj ((List.range 10).map
        (fun i => ("k" ++ toString i,
          Json.str (String.mk (List.replicate 850 'a')))))) := by decide
  exact ⟨hgt, ((C3_facts_byte_cap _).2.1 hgt).2.1,
    (C3_facts_byte_cap [("a", Json.str "x")]).1 (by decide)⟩

/-! ## Pointer-merge lemmas -/

theorem lookup_set_assoc_self {α : Type} (m : List (String × α)) (k : String)
    (v : α) : List.lookup k (set_assoc m k v) = some v := by
  induction m with
  | nil => simp [set_assoc, List.lookup]
  | cons x rest ih =>
    rw [set_assoc]
    split_ifs with h
    · simp [List.lookup]
    · have hb : (k == x.1) = false := by
        exact beq_false_of_ne (fun hc => h hc.symm)
      simp [List.lookup, hb, ih]

theorem lookup_set_assoc_other {α : Type} (m : List (String × α))
    (k k' : String) (v : α) (h : k' ≠ k) :
    List.lookup k' (set_assoc m k v) = List.lookup k' m := by
  induction m with
  | nil => simp [set_assoc, List.lookup, beq_false_of_ne h]
  | cons x rest ih =>
    rw [set_assoc]
    split_ifs with hx
    · subst hx
      simp [List.lookup, beq_false_of_ne h]
    · simp [List.lookup, ih]

theorem lookup_ensure_self {α : Type} (m : List (String × α)) (k : String)
    (e : α) :
    List.lookup k (if (List.lookup k m).isSome then m else m ++ [(k, e)]) =
      some ((List.lookup k m).getD e) := by
  cases hs : List.lookup k m with
  | none =>
    simp only [hs, Option.isSome_none, Bool.false_eq_true, if_false]
    rw [lookup_append, hs]
    simp [List.lookup]
  | some v => simp [hs]

theorem lookup_ensure_other {α : Type} (m : List (String × α))
    (k k' : String) (e : α) (h : k' ≠ k) :
    List.lookup k' (if (List.lookup k m).isSome then m else m ++ [(k, e)]) =
      List.lookup k' m := by
  cases hs : List.lookup k m with
  | none =>
    simp only [hs, Option.isSome_none, Bool.false_eq_true, if_false]
    rw [lookup_append]
    simp [List.lookup, beq_false_of_ne h]
  | some v => simp [hs]

theorem lookup_merge_pointers_step (m : List (String × List String))
    (entry : String × List String) (cat : String) :
    (List.lookup cat (merge_pointers_step m entry)).getD [] =
      if cat = entry.1 then
        entry.2.foldl add_pointer ((List.lookup cat m).getD [])
      else (List.lookup cat m).getD [] := by
  unfold merge_pointers_step
  dsimp only
  by_cases hcat : cat = entry.1
  · subst hcat
    rw [lookup_set_assoc_self, lookup_ensure_self, if_pos rfl]
    simp
  · rw [lookup_set_assoc_other _ _ _ _ hcat, lookup_ensure_other _ _ _ _ hcat,
      if_neg hcat]

/-- The identifiers one pack's pointer entries contribute to a category, in
entry order. -/
def pointers_stream (entries : List (String × List String)) (cat : String) :
    List String :=
  (entries.filterMap (fun e => if e.1 = cat then some e.2 else none)).flatten

/-- All identifiers contributed to a category across packs, in pack order. -/
def cat_pointer_ids (packs : List MergeableContextPack) (cat : String) :
    List String :=
  packs.flatMap (fun p => pointers_stream p.pointers cat)

theorem lookup_foldl_pointer_steps
    (entries : List (String × List String))
    (m : List (String × List String)) (cat : String) :
    (List.lookup cat (entries.foldl merge_pointers_step m)).getD [] =
      (pointers_stream entries cat).foldl add_pointer
        ((List.lookup cat m).getD []) := by
  induction entries generalizing m with
  | nil => simp [pointers_stream]
  | cons e rest ih =>
    rw [List.foldl_cons, ih, lookup_merge_pointers_step]
    by_cases h : e.1 = cat
    · subst h
      simp [pointers_stream, List.foldl_append]
    · have h' : cat ≠ e.1 := fun hc => h hc.symm
      simp [pointers_stream, h, if_neg h']

theorem lookup_merge_pointers_aux (packs : List MergeableContextPack)
    (m : List (String × List String)) (cat : String) :
    (List.lookup cat
        (packs.foldl (fun m pack => pack.pointers.foldl merge_pointers_step m)
          m)).getD [] =
      (cat_pointer_ids packs cat).foldl add_pointer
        ((List.lookup cat m).getD []) := by
  induction packs generalizing m with
  | nil => simp [cat_pointer_ids]
  | cons p packs ih =>
    rw [List.foldl_cons, ih, lookup_foldl_pointer_steps]
    simp [cat_pointer_ids, List.foldl_append]

/-- The uncapped dedup step: append an identifier when unseen (the merge's
`add_pointer` without the per-category cap). -/
def add_pointer_nocap (cur : List String) (id_str : String) : List String :=
  if !cur.contains id_str then cur ++ [id_str] else cur

theorem foldl_add_pointer_take (ids : List String) (cur : List String) :
    ids.foldl add_pointer (cur.take POINTERS_MAX_PER_CATEGORY) =
      (ids.foldl add_pointer_nocap cur).take POINTERS_MAX_PER_CATEGORY := by
  induction ids generalizing cur with
  | nil => rfl
  | cons x rest ih =>
    rw [List.foldl_cons, List.foldl_cons]
    by_cases hlen : cur.length < POINTERS_MAX_PER_CATEGORY
    · have hcur : cur.take POINTERS_MAX_PER_CATEGORY = cur :=
        List.take_of_length_le (Nat.le_of_lt hlen)
      by_cases hmem : x ∈ cur
      · have h1 : add_pointer (cur.take POINTERS_MAX_PER_CATEGORY) x = cur := by
          rw [hcur]; simp [add_pointer, hmem]
        have h2 : add_pointer_nocap cur x = cur := by
          simp [add_pointer_nocap, hmem]
        rw [h1, h2, ← ih cur, hcur]
      · have h1 : add_pointer (cur.take POINTERS_MAX_PER_CATEGORY) x =
            cur ++ [x] := by
          rw [hcur]; simp [add_pointer, hmem, hlen]
        have h2 : add_pointer_nocap cur x = cur ++ [x] := by
          simp [add_pointer_nocap, hmem]
        have hfit : (cur ++ [x]).take POINTERS_MAX_PER_CATEGORY = cur ++ [x] :=
          List.take_of_length_le (by simpa using hlen)
        rw [h1, h2, ← ih (cur ++ [x]), hfit]
    · have hlen' : POINTERS_MAX_PER_CATEGORY ≤ cur.length :=
        Nat.le_of_not_lt hlen
      have htlen : (cur.take POINTERS_MAX_PER_CATEGORY).length =
          POINTERS_MAX_PER_CATEGORY := by
        simpa using Nat.min_eq_left hlen'
      have h1 : add_pointer (cur.take POINTERS_MAX_PER_CATEGORY) x =
          cur.take POINTERS_MAX_PER_CATEGORY := by
        simp [add_pointer, htlen]
      by_cases hmem : x ∈ cur
      · have h2 : add_pointer_nocap cur x = cur := by
          simp [add_pointer_nocap, hmem]
        rw [h1, h2, ih]
      · have h2 : add_pointer_nocap cur x = cur ++ [x] := by
          simp [add_pointer_nocap, hmem]
        have hsame : (cur ++ [x]).take POINTERS_MAX_PER_CATEGORY =
            cur.take POINTERS_MAX_PER_CATEGORY :=
          List.take_append_of_le_length hlen'
        rw [h1, h2, ← ih (cur ++ [x]), hsame]

theorem foldl_nocap_nodup (ids : List String) (cur : List String)
    (h : cur.Nodup) : (ids.foldl add_pointer_nocap cur).Nodup := by
  induction ids generalizing cur with
  | nil => exact h
  | cons x rest ih =>
    rw [List.foldl_cons]
    by_cases hmem : x ∈ cur
    · rw [show add_pointer_nocap cur x = cur by simp [add_pointer_nocap, hmem]]
      exact ih cur h
    · rw [show add_pointer_nocap cur x = cur ++ [x] by
        simp [add_pointer_nocap, hmem]]
      refine ih (cur ++ [x]) ?_
      simp [List.nodup_append, h, hmem]

theorem foldl_nocap_mem (ids : List String) (cur : List String) (x : String)
    (h : x ∈ ids.foldl add_pointer_nocap cur) : x ∈ cur ∨ x ∈ ids := by
  induction ids generalizing cur with
  | nil => exact Or.inl h
  | cons y rest ih =>
    rw [List.foldl_cons] at h
    by_cases hmem : y ∈ cur
    · rw [show add_pointer_nocap cur y = cur by
        simp [add_pointer_nocap, hmem]] at h
      rcases ih cur h with hc | hc
      · exact Or.inl hc
      · exact Or.inr (List.mem_cons_of_mem _ hc)
    · rw [show add_pointer_nocap cur y = cur ++ [y] by
        simp [add_pointer_nocap, hmem]] at h
      rcases ih (cur ++ [y]) h with hc | hc
      · rcases List.mem_append.mp hc with hc' | hc'
        · exact Or.inl hc'
        · rcases List.mem_singleton.mp hc' with rfl
          exact Or.inr (List.mem_cons_self _ _)
      · exact Or.inr (List.mem_cons_of_mem _ hc)

theorem foldl_nocap_all_new (l : List String) (cur : List String)
    (hnd : l.Nodup) (hnot : ∀ x ∈ l, x ∉ cur) :
    l.foldl add_pointer_nocap cur = cur ++ l := by
  induction l generalizing cur with
  | nil => simp
  | cons x rest ih =>
    rw [List.foldl_cons]
    have hx : x ∉ cur := hnot x (List.mem_cons_self _ _)
    rw [show add_pointer_nocap cur x = cur ++ [x] by
      simp [add_pointer_nocap, hx]]
    rw [ih (cur ++ [x]) (List.nodup_cons.mp hnd).2 ?_]
    · simp
    · intro y hy
      simp only [List.mem_append, List.mem_singleton]
      rintro (hc | rfl)
      · exact hnot y (List.mem_cons_of_mem _ hy) hc
      · exact (List.nodup_cons.mp hnd).1 hy

/-- C5: each merged pointers category is the deduplicated first-seen union
of the packs' identifier lists for that category, truncated to its first
100 entries — so it is duplicate-free, at most 100 long, and drawn entirely
from the contributed identifiers; two packs contributing 60 and 60 distinct
ids to one category yield the first pack's 60 followed by the second's
first 40. -/
theorem C5_pointers_union_dedup_cap :
    (∀ (packs : List MergeableContextPack) (cat : String),
      (List.lookup cat (merge_pointers packs)).getD [] =
        ((cat_pointer_ids packs cat).foldl add_pointer_nocap []).take
          POINTERS_MAX_PER_CATEGORY
      ∧ ((List.lookup cat (merge_pointers packs)).getD []).Nodup
      ∧ ((List.lookup cat (merge_pointers packs)).getD []).length ≤
          POINTERS_MAX_PER_CATEGORY
      ∧ ∀ x ∈ (List.lookup cat (merge_pointers packs)).getD [],
          x ∈ cat_pointer_ids packs cat)
    ∧ (∀ (cat s1 s2 v1 v2 : String) (g1 g2 : Int)
        (ids1 ids2 : List String),
      ids1.length = 60 → ids2.length = 60 → (ids1 ++ ids2).Nodup →
      (List.lookup cat (merge_pointers
        [⟨s1, v1, g1, [], [], [(cat, ids1)]⟩,
         ⟨s2, v2, g2, [], [], [(cat, ids2)]⟩])).getD [] =
        ids1 ++ ids2.take 40) := by
  have hmain : ∀ (packs : List MergeableContextPack) (cat : String),
      (List.lookup cat (merge_pointers packs)).getD [] =
        ((cat_pointer_ids packs cat).foldl add_pointer_nocap []).take
          POINTERS_MAX_PER_CATEGORY := by
    intro packs cat
    unfold merge_pointers
    rw [lookup_merge_pointers_aux packs [] cat]
    have h := foldl_add_pointer_take (cat_pointer_ids packs cat) []
    simp only [List.take_nil] at h
    simpa using h
  constructor
  · intro packs cat
    refine ⟨hmain packs cat, ?_, ?_, ?_⟩
    · rw [hmain packs cat]
      exact ((List.take_sublist _ _).nodup
        (foldl_nocap_nodup _ [] List.nodup_nil))
    · rw [hmain packs cat]
      simp
    · intro x hx
      rw [hmain packs cat] at hx
      have := List.take_subset _ _ hx
      rcases foldl_nocap_mem _ [] x this with hc | hc
      · cases hc
      · exact hc
  · intro cat s1 s2 v1 v2 g1 g2 ids1 ids2 h1 h2 hnd
    rw [hmain]
    have hids : cat_pointer_ids
        [⟨s1, v1, g1, [], [], [(cat, ids1)]⟩,
         ⟨s2, v2, g2, [], [], [(cat, ids2)]⟩] cat = ids1 ++ ids2 := by
      simp [cat_pointer_ids, pointers_stream]
    rw [hids]
    rw [foldl_nocap_all_new (ids1 ++ ids2) [] hnd (by simp)]
    rw [List.nil_append]
    have hsplit : POINTERS_MAX_PER_CATEGORY = ids1.length + 40 := by
      rw [h1]
      decide
    rw [hsplit, List.take_append]

/-- C5 witness: two packs contributing 60 and 60 distinct identifiers to
the same category merge to exactly the first pack's 60 followed by the
second pack's first 40. -/
theorem C5_pointers_union_witness :
    (List.lookup "documents" (merge_pointers
        [⟨"p1", "1.0", 0, [], [],
          [("documents", (List.range 60).map (fun n => "a" ++ toString n))]⟩,
         ⟨"p2", "1.0", 0, [], [],
          [("documents", (List.range 60).map (fun n => "b" ++ toString n))]⟩])).getD [] =
      ((List.range 60).map (fun n => "a" ++ toString n)) ++
        ((List.range 60).map (fun n => "b" ++ toString n)).take 40 :=
  C5_pointers_union_dedup_cap.2 "documents" "p1" "p2" "1.0" "1.0" 0 0
    ((List.range 60).map (fun n => "a" ++ toString n))
    ((List.range 60).map (fun n => "b" ++ toString n))
    (by decide) (by decide) (by decide)

/-! ## Recents-merge lemmas -/

/-- The items a single recents value contributes: a list contributes its
elements, anything else itself. -/
def recent_items (v : Json) : List Json :=
  match v with
  | Json.arr items => items
  | _ => [v]

/-- The recents values contributed to a category across packs, in pack and
entry order. -/
def cat_recent_values (packs : List MergeableContextPack) (cat : String) :
    List Json :=
  packs.flatMap (fun p =>
    p.recents.filterMap (fun e => if e.1 = cat then some e.2 else none))

/-- The truthy `id` of a dict item, when it has one — the key the merge
deduplicates such items by. -/
def item_id (v : Json) : Option Json :=
  match v with
  | Json.obj fs =>
    match List.lookup "id" fs with
    | some w => if w.truthy then some w else none
    | none => none
  | _ => none

/-- No two items of the list carry the same truthy `id`. -/
def distinct_ids (l : List Json) : Prop :=
  List.Pairwise (fun a b => ∀ i, item_id a = some i → item_id b ≠ some i) l

theorem lookup_merge_recents_step (m : List (String × List Json))
    (entry : String × Json) (cat : String) :
    (List.lookup cat (merge_recents_step m entry)).getD [] =
      if cat = entry.1 then
        add_recent_value ((List.lookup cat m).getD []) entry.2
      else (List.lookup cat m).getD [] := by
  unfold merge_recents_step
  dsimp only
  by_cases hcat : cat = entry.1
  · subst hcat
    rw [lookup_set_assoc_self, lookup_ensure_self, if_pos rfl]
    simp
  · rw [lookup_set_assoc_other _ _ _ _ hcat, lookup_ensure_other _ _ _ _ hcat,
      if_neg hcat]

theorem lookup_foldl_recents_steps (entries : List (String × Json))
    (m : List (String × List Json)) (cat : String) :
    (List.lookup cat (entries.foldl merge_recents_step m)).getD [] =
      (entries.filterMap
        (fun e => if e.1 = cat then some e.2 else none)).foldl
        add_recent_value ((List.lookup cat m).getD []) := by
  induction entries generalizing m with
  | nil => simp
  | cons e rest ih =>
    rw [List.foldl_cons, ih, lookup_merge_recents_step]
    by_cases h : e.1 = cat
    · subst h
      simp
    · have h' : cat ≠ e.1 := fun hc => h hc.symm
      simp [h, if_neg h']

theorem lookup_merge_recents_aux (packs : List MergeableContextPack)
    (m : List (String × List Json)) (cat : String) :
    (List.lookup cat
        (packs.foldl (fun m pack => pack.recents.foldl merge_recents_step m)
          m)).getD [] =
      (cat_recent_values packs cat).foldl add_recent_value
        ((List.lookup cat m).getD []) := by
  induction packs generalizing m with
  | nil => simp [cat_recent_values]
  | cons p packs ih =>
    rw [List.foldl_cons, ih, lookup_foldl_recents_steps]
    simp [cat_recent_values, List.foldl_append]

theorem lookup_apply_recents_cap (m : List (String × List Json))
    (cat : String) :
    List.lookup cat (apply_recents_cap m) =
      (List.lookup cat m).map (fun vs => vs.take RECENTS_MAX_COUNT) := by
  induction m with
  | nil => simp [apply_recents_cap, List.lookup]
  | cons kv rest ih =>
    rw [apply_recents_cap, List.map_cons]
    by_cases h : cat = kv.1
    · subst h
      split_ifs with hlen
      · simp [List.lookup]
      · have : kv.2.take RECENTS_MAX_COUNT = kv.2 :=
          List.take_of_length_le (Nat.le_of_not_lt hlen)
        simp [List.lookup, this]
    · have hb : (cat == kv.1) = false := beq_false_of_ne h
      split_ifs with hlen
      · simp only [List.lookup, hb]
        exact ih
      · simp only [List.lookup, hb]
        exact ih

theorem add_recent_item_eq_or (cur : List Json) (item : Json) :
    add_recent_item cur item = cur
    ∨ add_recent_item cur item = cur ++ [item] := by
  unfold add_recent_item
  split
  · split
    · split_ifs <;> first | exact Or.inl rfl | exact Or.inr rfl
    · split_ifs <;> first | exact Or.inl rfl | exact Or.inr rfl
  · split_ifs <;> first | exact Or.inl rfl | exact Or.inr rfl

theorem foldl_add_recent_item_mem (items : List Json) (cur : List Json)
    (x : Json) (h : x ∈ items.foldl add_recent_item cur) :
    x ∈ cur ∨ x ∈ items := by
  induction items generalizing cur with
  | nil => exact Or.inl h
  | cons item rest ih =>
    rw [List.foldl_cons] at h
    rcases ih (add_recent_item cur item) h with hc | hc
    · rcases add_recent_item_eq_or cur item with he | he
      · rw [he] at hc
        exact Or.inl hc
      · rw [he] at hc
        rcases List.mem_append.mp hc with hc' | hc'
        · exact Or.inl hc'
        · rcases List.mem_singleton.mp hc' with rfl
          exact Or.inr (List.mem_cons_self _ _)
    · exact Or.inr (List.mem_cons_of_mem _ hc)

theorem recent_items_of_not_arr (v : Json)
    (hne : ∀ items, v = Json.arr items → False) : recent_items v = [v] := by
  cases v with
  | arr xs => exact (hne xs rfl).elim
  | str s => rfl
  | num n => rfl
  | bool b => rfl
  | null => rfl
  | obj fs => rfl

theorem add_recent_value_mem (cur : List Json) (v : Json) (x : Json)
    (h : x ∈ add_recent_value cur v) : x ∈ cur ∨ x ∈ recent_items v := by
  revert h
  unfold add_recent_value
  split
  · intro h
    exact foldl_add_recent_item_mem _ cur x h
  · rename_i hne
    intro h
    rw [recent_items_of_not_arr v hne]
    split_ifs at h with hc
    · exact Or.inl h
    · rcases List.mem_append.mp h with h' | h'
      · exact Or.inl h'
      · exact Or.inr h'

theorem foldl_add_recent_value_mem (stream : List Json) (cur : List Json)
    (x : Json) (h : x ∈ stream.foldl add_recent_value cur) :
    x ∈ cur ∨ x ∈ stream.flatMap recent_items := by
  induction stream generalizing cur with
  | nil => exact Or.inl h
  | cons v rest ih =>
    rw [List.foldl_cons] at h
    rcases ih (add_recent_value cur v) h with hc | hc
    · rcases add_recent_value_mem cur v x hc with hc' | hc'
      · exact Or.inl hc'
      · exact Or.inr (by
          rw [List.flatMap_cons]
          exact List.mem_append.mpr (Or.inl hc'))
    · exact Or.inr (by
        rw [List.flatMap_cons]
        exact List.mem_append.mpr (Or.inr hc))

theorem item_id_obj_some (fs : List (String × Json)) (w : Json)
    (hl : List.lookup "id" fs = some w) :
    item_id (Json.obj fs) = if w.truthy then some w else none := by
  rw [item_id, hl]

theorem item_id_obj_none (fs : List (String × Json))
    (hl : List.lookup "id" fs = none) : item_id (Json.obj fs) = none := by
  rw [item_id, hl]

theorem item_id_none_of_not_obj (v : Json)
    (hne : ∀ fs, v = Json.obj fs → False) : item_id v = none := by
  cases v with
  | obj fs => exact (hne fs rfl).elim
  | str s => rfl
  | num n => rfl
  | bool b => rfl
  | null => rfl
  | arr xs => rfl

theorem item_id_mem_has (cur : List Json) (a idv : Json) (ha : a ∈ cur)
    (hid : item_id a = some idv) : has_item_with_id cur idv = true := by
  cases a with
  | obj fs =>
    cases hl : List.lookup "id" fs with
    | some w =>
      rw [item_id_obj_some fs w hl] at hid
      split_ifs at hid with ht
      have hw : w = idv := by injection hid
      rw [has_item_with_id]
      apply List.any_eq_true.mpr
      refine ⟨Json.obj fs, ha, ?_⟩
      simp [hl, hw]
    | none =>
      rw [item_id_obj_none fs hl] at hid
      cases hid
  | str s => exact Option.noConfusion hid
  | num n => exact Option.noConfusion hid
  | bool b => exact Option.noConfusion hid
  | null => exact Option.noConfusion hid
  | arr xs => exact Option.noConfusion hid

theorem distinct_ids_append (cur : List Json) (x : Json)
    (h : distinct_ids cur)
    (hx : ∀ idv, item_id x = some idv → has_item_with_id cur idv = false) :
    distinct_ids (cur ++ [x]) := by
  rw [distinct_ids, List.pairwise_append]
  refine ⟨h, List.pairwise_singleton _ _, ?_⟩
  intro a ha b hb
  rcases List.mem_singleton.mp hb with rfl
  intro i hia hib
  have hfalse := hx i hib
  rw [item_id_mem_has cur a i ha hia] at hfalse
  cases hfalse

theorem add_recent_item_distinct (cur : List Json) (item : Json)
    (h : distinct_ids cur) : distinct_ids (add_recent_item cur item) := by
  unfold add_recent_item
  split
  · rename_i fs
    split
    · rename_i idv hl
      split_ifs with ht hhas hmem
      · exact h
      · refine distinct_ids_append cur _ h ?_
        intro idv' hid
        rw [item_id_obj_some fs idv hl, if_pos ht] at hid
        have : idv = idv' := by injection hid
        subst this
        exact Bool.not_eq_true _ ▸ (by simpa using hhas)
      · exact h
      · refine distinct_ids_append cur _ h ?_
        intro idv' hid
        rw [item_id_obj_some fs idv hl, if_neg ht] at hid
        cases hid
    · rename_i hl
      split_ifs with hmem
      · exact h
      · refine distinct_ids_append cur _ h ?_
        intro idv' hid
        rw [item_id_obj_none fs hl] at hid
        cases hid
  · rename_i hne
    split_ifs with hmem
    · exact h
    · refine distinct_ids_append cur _ h ?_
      intro idv' hid
      rw [item_id_none_of_not_obj _ (fun fs hfs => hne fs hfs)] at hid
      cases hid

theorem foldl_add_recent_item_distinct (items : List Json) (cur : List Json)
    (h : distinct_ids cur) :
    distinct_ids (items.foldl add_recent_item cur) := by
  induction items generalizing cur with
  | nil => exact h
  | cons item rest ih =>
    rw [List.foldl_cons]
    exact ih (add_recent_item cur item) (add_recent_item_distinct cur item h)

theorem foldl_add_recent_value_distinct (stream : List Json)
    (cur : List Json) (h : distinct_ids cur)
    (harr : ∀ v ∈ stream, ∃ items, v = Json.arr items) :
    distinct_ids (stream.foldl add_recent_value cur) := by
  induction stream generalizing cur with
  | nil => exact h
  | cons v rest ih =>
    rcases harr v (List.mem_cons_self _ _) with ⟨items, rfl⟩
    rw [List.foldl_cons]
    exact ih (add_recent_value cur (Json.arr items))
      (foldl_add_recent_item_distinct items cur h)
      (fun v hv => harr v (List.mem_cons_of_mem _ hv))

/-- C6: each merged recents category is the in-order fold of the packs'
contributions for that category, every element of it comes from a
contributed list (or scalar), dict items with a truthy `id` are never
duplicated when the contributions are lists (first occurrence wins, as on
the spec's two-pack example where label "A" survives), and the final cap
truncates every category to its first 50 items in merged order. -/
theorem C6_recents_union_dedup_cap :
    (∀ (m : List (String × List Json)) (cat : String),
        List.lookup cat (apply_recents_cap m) =
          (List.lookup cat m).map (fun vs => vs.take RECENTS_MAX_COUNT))
    ∧ (∀ (packs : List MergeableContextPack) (cat : String),
        (List.lookup cat (merge_recents packs)).getD [] =
          (cat_recent_values packs cat).foldl add_recent_value []
        ∧ (∀ x ∈ (List.lookup cat (merge_recents packs)).getD [],
            x ∈ (cat_recent_values packs cat).flatMap recent_items)
        ∧ ((∀ v ∈ cat_recent_values packs cat, ∃ items, v = Json.arr items) →
            distinct_ids ((List.lookup cat (merge_recents packs)).getD [])))
    ∧ (merge_recents
        [⟨"p1", "1.0", 0, [],
          [("top", Json.arr
            [Json.obj [("id", Json.str "1"), ("label", Json.str "A")]])], []⟩,
         ⟨"p2", "1.0", 0, [],
          [("top", Json.arr
            [Json.obj [("id", Json.str "1"), ("label", Json.str "B")]])], []⟩] =
        [("top", [Json.obj [("id", Json.str "1"), ("label", Json.str "A")]])]
      ∧ apply_recents_cap (merge_recents
        [⟨"p1", "1.0", 0, [],
          [("top", Json.arr
            [Json.obj [("id", Json.str "1"), ("label", Json.str "A")]])], []⟩,
         ⟨"p2", "1.0", 0, [],
          [("top", Json.arr
            [Json.obj [("id", Json.str "1"), ("label", Json.str "B")]])], []⟩]) =
        [("top", [Json.obj [("id", Json.str "1"), ("label", Json.str "A")]])]) := by
  refine ⟨lookup_apply_recents_cap, ?_, by decide, by decide⟩
  intro packs cat
  have heq : (List.lookup cat (merge_recents packs)).getD [] =
      (cat_recent_values packs cat).foldl add_recent_value [] := by
    unfold merge_recents
    rw [lookup_merge_recents_aux packs [] cat]
    simp
  refine ⟨heq, ?_, ?_⟩
  · intro x hx
    rw [heq] at hx
    rcases foldl_add_recent_value_mem _ [] x hx with hc | hc
    · cases hc
    · exact hc
  · intro harr
    rw [heq]
    exact foldl_add_recent_value_distinct _ [] List.Pairwise.nil harr

/-- C6 witness: the cap instance on a concrete one-category map and the
no-duplicate-truthy-ids conclusion on the spec's two-pack example. -/
theorem C6_recents_witness :
    List.lookup "top" (apply_recents_cap
        [("top", [Json.obj [("id", Json.str "1")]])]) =
      (List.lookup "top" [("top", [Json.obj [("id", Json.str "1")]])]).map
        (fun vs => vs.take RECENTS_MAX_COUNT)
    ∧ distinct_ids ((List.lookup "top" (merge_recents
        [⟨"p1", "1.0", 0, [],
          [("top", Json.arr
            [Json.obj [("id", Json.str "1"), ("label", Json.str "A")]])], []⟩,
         ⟨"p2", "1.0", 0, [],
          [("top", Json.arr
            [Json.obj [("id", Json.str "1"), ("label", Json.str "B")]])],
          []⟩])).getD []) := by
  have hcv : cat_recent_values
      [⟨"p1", "1.0", 0, [],
        [("top", Json.arr
          [Json.obj [("id", Json.str "1"), ("label", Json.str "A")]])], []⟩,
       ⟨"p2", "1.0", 0, [],
        [("top", Json.arr
          [Json.obj [("id", Json.str "1"), ("label", Json.str "B")]])], []⟩]
      "top" =
      [Json.arr [Json.obj [("id", Json.str "1"), ("label", Json.str "A")]],
       Json.arr [Json.obj [("id", Json.str "1"), ("label", Json.str "B")]]] := by
    decide
  refine ⟨C6_recents_union_dedup_cap.1 _ "top", ?_⟩
  refine (C6_recents_union_dedup_cap.2.1 _ "top").2.2 ?_
  intro v hv
  rw [hcv] at hv
  rcases List.mem_cons.mp hv with rfl | hv2
  · exact ⟨_, rfl⟩
  rcases List.mem_cons.mp hv2 with rfl | hv3
  · exact ⟨_, rfl⟩
  cases hv3

end Conversa
